import Mathlib

/-!
Shallow embedding of the AegisOS kernel modules:
  src/aegis-os-core/kernel-module/aegis_lkm_stub.c
  src/aegis-os-freemium/kernel-module/aegis_lkm.c

The core module keeps two globals, `aegis_license_active` (initially false)
and `aegis_license_tier` (initially "none"); we model them as a state record.
File I/O in `aegis_read_token_file` is modelled by an environment value
`ReadResult` describing the outcome of the read (token bytes, -ENOENT, -EIO,
-ENOMEM).  The C idiom of returning an int status plus writing an out-param
`*tier` in `aegis_validate_token_stub` is modelled as `Except Int String`
(error carries the errno, success carries the tier string).
-/

namespace Aegis

/-- The two module-level globals of aegis_lkm_stub.c:
`static bool aegis_license_active = false;`
`static char *aegis_license_tier = "none";`. -/
structure AegisState where
  aegis_license_active : Bool
  aegis_license_tier : String
deriving DecidableEq

/-- Initial values of the globals at module load: active=false, tier="none". -/
def aegis_init_state : AegisState := ⟨false, "none"⟩

/-- Outcome of `aegis_read_token_file`: success with the token bytes, or one
of the error returns -ENOENT (file absent), -EIO (read failure),
-ENOMEM (allocation failure). -/
inductive ReadResult
  | ok (tok : List Char)
  | enoent
  | eio
  | enomem
deriving DecidableEq

deriving instance DecidableEq for Except

/-- Whether `pat` occurs at the very start of `hay` (helper for strstr). -/
def leadsWith : List Char → List Char → Bool
  | [], _ => true
  | _ :: _, [] => false
  | p :: ps, h :: hs => p == h && leadsWith ps hs

/-- C `strstr(hay, pat) != NULL`: does `pat` occur as a contiguous substring
of `hay`? -/
def strstrB (hay pat : List Char) : Bool :=
  match hay with
  | [] => leadsWith pat []
  | c :: t => leadsWith pat (c :: t) || strstrB t pat

/-- The strstr keyword chain of `aegis_validate_token_stub`
(aegis_lkm_stub.c lines 102-114): first match among "gamer", "ai",
"server", "basic", "freemium", falling back to "unknown". -/
def stub_tier_of (tok : List Char) : String :=
  if strstrB tok ("gamer".toList) then ("gamer")
  else if strstrB tok ("ai".toList) then ("ai")
  else if strstrB tok ("server".toList) then ("server")
  else if strstrB tok ("basic".toList) then ("basic")
  else if strstrB tok ("freemium".toList) then ("freemium")
  else ("unknown")

/-- `aegis_validate_token_stub` (aegis_lkm_stub.c lines 93-118): rejects a
NULL pointer or a token shorter than 10 bytes with -EINVAL (-22); any other
token is accepted (return 0) with the tier from the strstr keyword chain. -/
def aegis_validate_token_stub : Option (List Char) → Except Int String
  | none => Except.error (-22)
  | some tok =>
    if tok.length < 10 then Except.error (-22)
    else Except.ok (stub_tier_of tok)

/-- The feature bundles named in the branches of `aegis_activate_features`
(aegis_lkm_stub.c lines 127-146).  The "freemium" branch announces basic
features only and names none; every unmatched tier (including "unknown")
falls through all branches and activates no feature. -/
def aegis_tier_features (tier : String) : List String :=
  if tier = "freemium" then []
  else if tier = "basic" then ["security_updates"]
  else if tier = "gamer" then
    ["ai_powered_frame_optimization", "p2p_network_tuning", "low_latency_mode"]
  else if tier = "ai" then
    ["docker_integration", "gpu_acceleration", "container_optimization"]
  else if tier = "server" then
    ["ai_server_acceleration", "multi_tenant_isolation", "high_performance_networking"]
  else []

/-- `aegis_activate_features` (aegis_lkm_stub.c lines 123-150): after the
logging branches it unconditionally sets `aegis_license_active = true` and
`aegis_license_tier = tier`. -/
def aegis_activate_features (tier : String) (s : AegisState) : AegisState :=
  { s with aegis_license_active := true, aegis_license_tier := tier }

/-- `aegis_lkm_init` (aegis_lkm_stub.c lines 155-187): read the token file;
on any read error set active=false and return 0; otherwise validate, and on
validation success activate, on failure set active=false.  Always returns 0. -/
def aegis_lkm_init (read : ReadResult) (s : AegisState) : AegisState × Int :=
  match read with
  | ReadResult.ok tok =>
    match aegis_validate_token_stub (some tok) with
    | Except.ok tier => (aegis_activate_features tier s, 0)
    | Except.error _ => ({ s with aegis_license_active := false }, 0)
  | _ => ({ s with aegis_license_active := false }, 0)

/-- `aegis_lkm_exit` (aegis_lkm_stub.c lines 192-203): sets
`aegis_license_active = false`; the tier global is left untouched. -/
def aegis_lkm_exit (s : AegisState) : AegisState :=
  { s with aegis_license_active := false }

/-- Exported query `aegis_is_licensed` (aegis_lkm_stub.c lines 208-211). -/
def aegis_is_licensed (s : AegisState) : Bool :=
  s.aegis_license_active

/-- Exported query `aegis_get_tier` (aegis_lkm_stub.c lines 214-217). -/
def aegis_get_tier (s : AegisState) : String :=
  s.aegis_license_tier

/-- The state-transition operations of the module lifecycle: module load
(`aegis_lkm_init`, with the outcome of the token-file read as environment)
and module unload (`aegis_lkm_exit`). -/
inductive AegisOp
  | init (read : ReadResult)
  | unload

/-- One lifecycle operation applied to the globals. -/
def aegis_step (s : AegisState) : AegisOp → AegisState
  | AegisOp.init r => (aegis_lkm_init r s).1
  | AegisOp.unload => aegis_lkm_exit s

/-- A sequence of lifecycle operations applied to the globals. -/
def aegis_run (ops : List AegisOp) (s : AegisState) : AegisState :=
  ops.foldl aegis_step s

/-- The tier strings the stub validator can emit (aegis_lkm_stub.c
lines 102-114). -/
def validator_tiers : List String :=
  ["gamer", "ai", "server", "basic", "freemium", "unknown"]

/-- Invariant on the globals: whenever the active flag is set, the tier
global was produced by a successful validation (so it is one of the
validator's tier strings and is not the unlicensed value "none"). -/
def AegisInv (s : AegisState) : Prop :=
  s.aegis_license_active = true →
    s.aegis_license_tier ∈ validator_tiers ∧
    s.aegis_license_tier ≠ "none" ∧
    ∃ tok, aegis_validate_token_stub (some tok) = Except.ok s.aegis_license_tier

/-- The keyword precedence order of the strstr chain in
`aegis_validate_token_stub`, used to state the first-match law. -/
def keyword_order : List String :=
  ["gamer", "ai", "server", "basic", "freemium"]

/-- First keyword of `keyword_order` occurring in the token, "unknown" when
none occurs: the specification-shaped restatement of the strstr chain. -/
def first_keyword (tok : List Char) : String :=
  (keyword_order.find? (fun k => strstrB tok k.toList)).getD ("unknown")

/-! Embedding of the freemium module aegis_lkm.c. -/

/-- `license_tier` global of aegis_lkm.c: `AEGIS_LICENSE_TIER = 2`. -/
def license_tier : Int := 2

/-- The `status_names` array of `status_show` (aegis_lkm.c lines 52-59),
with designated initializers 0 through 5. -/
def status_names : List String :=
  ["unlicensed", "professional", "freemium", "gamer", "ai_developer", "server"]

/-- `status_show` (aegis_lkm.c lines 50-66): if the stored tier code is
between 0 and 5 it indexes `status_names`, otherwise it prints "unknown".
The array access is modelled with `List.get?`; a `none` result would mean
an out-of-bounds access. -/
def status_show (tier : Int) : Option String :=
  if 0 ≤ tier ∧ tier ≤ 5 then status_names.get? tier.toNat
  else some ("unknown")

/-- The constant feature list printed by `features_show`
(aegis_lkm.c lines 71-84); the handler does not consult `license_tier`. -/
def features_show : List String :=
  ["basic_monitoring", "gaming_optimization", "community_support",
   "proton_wine", "system_utilities"]

/-- The constant list printed by `disabled_features_show`
(aegis_lkm.c lines 87-101); the handler does not consult `license_tier`. -/
def disabled_features_show : List String :=
  ["priority_updates", "ai_optimization", "professional_support",
   "advanced_monitoring", "kernel_enhancements", "enterprise_features"]

/-- The feature universe of the freemium module: every feature named by
either sysfs attribute, enumerated explicitly. -/
def all_features : List String :=
  ["basic_monitoring", "gaming_optimization", "community_support",
   "proton_wine", "system_utilities",
   "priority_updates", "ai_optimization", "professional_support",
   "advanced_monitoring", "kernel_enhancements", "enterprise_features"]

/-! Theorems. -/

/-- Helper: every tier string the strstr chain can produce is in
`validator_tiers`. -/
theorem stub_tier_of_mem_validator (tok : List Char) :
    stub_tier_of tok ∈ validator_tiers := by
  unfold stub_tier_of validator_tiers
  split_ifs <;> simp

/-- Helper: the strstr chain never produces the unlicensed value "none". -/
theorem stub_tier_of_ne_none (tok : List Char) :
    stub_tier_of tok ≠ "none" := by
  unfold stub_tier_of
  split_ifs <;> decide

/-- Helper: a successful stub validation returns exactly the tier of the
strstr keyword chain. -/
theorem validate_ok_tier (tok : List Char) (tier : String)
    (h : aegis_validate_token_stub (some tok) = Except.ok tier) :
    tier = stub_tier_of tok := by
  unfold aegis_validate_token_stub at h
  by_cases hl : tok.length < 10
  · simp [hl] at h
  · simp [hl] at h
    exact h.symm

/-- Helper: each lifecycle operation preserves the license-state
invariant `AegisInv`. -/
theorem aegis_step_preserves (s : AegisState) (op : AegisOp)
    (_h : AegisInv s) : AegisInv (aegis_step s op) := by
  cases op with
  | unload =>
    intro hact
    simp [aegis_step, aegis_lkm_exit] at hact
  | init r =>
    cases r with
    | ok tok =>
      rcases hvt : aegis_validate_token_stub (some tok) with err | tier
      · intro hact
        simp [aegis_step, aegis_lkm_init, hvt] at hact
      · intro _
        have ht : tier = stub_tier_of tok := validate_ok_tier tok tier hvt
        have hred : aegis_step s (AegisOp.init (ReadResult.ok tok)) =
            aegis_activate_features tier s := by
          simp [aegis_step, aegis_lkm_init, hvt]
        rw [hred]
        exact ⟨ht ▸ stub_tier_of_mem_validator tok, ht ▸ stub_tier_of_ne_none tok, tok, hvt⟩
    | enoent =>
      intro hact
      simp [aegis_step, aegis_lkm_init] at hact
    | eio =>
      intro hact
      simp [aegis_step, aegis_lkm_init] at hact
    | enomem =>
      intro hact
      simp [aegis_step, aegis_lkm_init] at hact

/-- C1: the claim fails on the stub. The 12-byte token of letter a only —
malformed (no header.payload.signature structure) and unsigned — is
accepted by `aegis_validate_token_stub` (return 0, tier "unknown"), and
after the load-validate-activate pipeline the module reports licensed,
where the claim requires rejection and `isActive() == false`. -/
theorem stub_accepts_unsigned_token :
    aegis_validate_token_stub (some ("aaaaaaaaaaaa".toList)) = Except.ok ("unknown") ∧
    aegis_is_licensed
      (aegis_lkm_init (ReadResult.ok ("aaaaaaaaaaaa".toList)) aegis_init_state).1 = true := by
  decide

/-- C2 counterexample: a 12-byte token containing no recognized keyword maps
to tier "unknown", yet after the pipeline the module reports licensed —
so the Unknown tier does confer active entitlement, contrary to the
claim. -/
theorem unknown_tier_confers_active :
    aegis_get_tier
      (aegis_lkm_init (ReadResult.ok ("xyzxyzxyzxyz".toList)) aegis_init_state).1 = "unknown" ∧
    aegis_is_licensed
      (aegis_lkm_init (ReadResult.ok ("xyzxyzxyzxyz".toList)) aegis_init_state).1 = true := by
  decide

/-- C2 amended: every accepted token (length at least 10) in which no
recognized tier keyword occurs validates to tier "unknown"; the Unknown
tier activates no feature (empty feature bundle); but the pipeline still
publishes active=true with tier "unknown". -/
theorem unknown_tier_untrusted_features (tok : List Char) (h10 : 10 ≤ tok.length)
    (hk : ∀ k ∈ keyword_order, strstrB tok k.toList = false) :
    aegis_validate_token_stub (some tok) = Except.ok ("unknown") ∧
    aegis_tier_features ("unknown") = [] ∧
    (aegis_lkm_init (ReadResult.ok tok) aegis_init_state).1 = ⟨true, "unknown"⟩ := by
  have hg := hk ("gamer") (by simp [keyword_order])
  have ha := hk ("ai") (by simp [keyword_order])
  have hs := hk ("server") (by simp [keyword_order])
  have hb := hk ("basic") (by simp [keyword_order])
  have hf := hk ("freemium") (by simp [keyword_order])
  have hnl : ¬ tok.length < 10 := by omega
  have hval : aegis_validate_token_stub (some tok) = Except.ok ("unknown") := by
    simp only [aegis_validate_token_stub, if_neg hnl]
    unfold stub_tier_of
    simp only [hg, ha, hs, hb, hf]
    rfl
  refine ⟨hval, rfl, ?_⟩
  simp [aegis_lkm_init, hval, aegis_activate_features, aegis_init_state]

/-- C2 witness: the amended statement at the concrete keyword-free token. -/
theorem unknown_tier_untrusted_features_witness :
    aegis_validate_token_stub (some ("xyzxyzxyzxyz".toList)) = Except.ok ("unknown") ∧
    aegis_tier_features ("unknown") = [] ∧
    (aegis_lkm_init (ReadResult.ok ("xyzxyzxyzxyz".toList)) aegis_init_state).1 =
      ⟨true, "unknown"⟩ :=
  unknown_tier_untrusted_features _ (by decide) (by decide)

/-- C3 counterexample: activate tier "gamer", then unload. Afterwards
`aegis_is_licensed` is false but `aegis_get_tier` still returns "gamer",
not the unlicensed value "none" — refuting that the published state after
deactivation is exactly the unlicensed tier. -/
theorem unload_keeps_prior_tier :
    aegis_is_licensed
      (aegis_lkm_exit (aegis_activate_features ("gamer") aegis_init_state)) = false ∧
    aegis_get_tier
      (aegis_lkm_exit (aegis_activate_features ("gamer") aegis_init_state)) = "gamer" ∧
    aegis_get_tier
      (aegis_lkm_exit (aegis_activate_features ("gamer") aegis_init_state)) ≠ "none" := by
  decide

/-- C3 amended: after `aegis_lkm_exit`, `aegis_is_licensed` returns false
regardless of the prior tier, but `aegis_get_tier` keeps the previously
published tier value unchanged (it is not reset to the unlicensed value). -/
theorem unload_clears_active_only (s : AegisState) :
    aegis_is_licensed (aegis_lkm_exit s) = false ∧
    aegis_get_tier (aegis_lkm_exit s) = aegis_get_tier s :=
  ⟨rfl, rfl⟩

/-- C4: with the token file absent (-ENOENT), initialization returns 0
(no error), the module is not licensed, the tier global is the unlicensed
value "none", and the feature bundle of that tier is empty — fail-closed. -/
theorem absent_token_fail_closed :
    (aegis_lkm_init ReadResult.enoent aegis_init_state).2 = 0 ∧
    aegis_is_licensed (aegis_lkm_init ReadResult.enoent aegis_init_state).1 = false ∧
    aegis_get_tier (aegis_lkm_init ReadResult.enoent aegis_init_state).1 = "none" ∧
    aegis_tier_features
      (aegis_get_tier (aegis_lkm_init ReadResult.enoent aegis_init_state).1) = [] := by
  decide

/-- C5: the claim fails on the stub. The 10-byte token with zero delimiter
dots — hence not three segments — is accepted by the validator with
tier "unknown" instead of being rejected as malformed: the stub performs
no segment split at all. -/
theorem stub_no_segment_split :
    (("abcdefghij".toList).count '.') = 0 ∧
    aegis_validate_token_stub (some ("abcdefghij".toList)) = Except.ok ("unknown") := by
  decide

/-- C6: in every state reachable from the initial globals by any sequence of
lifecycle operations, a true active flag implies the tier global is one of
the validator's tier strings, is not the unlicensed value "none", and was
produced by a successful validation. -/
theorem reachable_no_active_unlicensed (ops : List AegisOp)
    (h : aegis_is_licensed (aegis_run ops aegis_init_state) = true) :
    aegis_get_tier (aegis_run ops aegis_init_state) ∈ validator_tiers ∧
    aegis_get_tier (aegis_run ops aegis_init_state) ≠ "none" ∧
    ∃ tok, aegis_validate_token_stub (some tok) =
      Except.ok (aegis_get_tier (aegis_run ops aegis_init_state)) := by
  have key : ∀ (l : List AegisOp) (s : AegisState), AegisInv s → AegisInv (aegis_run l s) := by
    intro l
    induction l with
    | nil => intro s hs; exact hs
    | cons op rest ih =>
      intro s hs
      exact ih (aegis_step s op) (aegis_step_preserves s op hs)
  have base : AegisInv aegis_init_state := by
    intro hact
    simp [aegis_init_state] at hact
  exact key ops aegis_init_state base h

/-- C6 witness: a run that loads a token containing "gamer" reaches an
active state, and the theorem applies to it. -/
theorem reachable_no_active_unlicensed_witness :
    aegis_get_tier
      (aegis_run [AegisOp.init (ReadResult.ok ("header.gamer.sig".toList))]
        aegis_init_state) ∈ validator_tiers ∧
    aegis_get_tier
      (aegis_run [AegisOp.init (ReadResult.ok ("header.gamer.sig".toList))]
        aegis_init_state) ≠ "none" ∧
    ∃ tok, aegis_validate_token_stub (some tok) =
      Except.ok (aegis_get_tier
        (aegis_run [AegisOp.init (ReadResult.ok ("header.gamer.sig".toList))]
          aegis_init_state)) :=
  reachable_no_active_unlicensed _ (by decide)

/-- C7: the enabled and disabled feature lists of the freemium module are
disjoint, and together they enumerate exactly the full feature universe.
(The two sysfs handlers are constant in the code — they do not consult the
stored tier — so this partition holds for every tier value.) -/
theorem features_partition :
    (∀ f ∈ features_show, f ∉ disabled_features_show) ∧
    (∀ f, f ∈ all_features ↔ f ∈ features_show ∨ f ∈ disabled_features_show) := by
  constructor
  · decide
  · intro f
    have h : all_features = features_show ++ disabled_features_show := rfl
    rw [h, List.mem_append]

/-- C7 witness: the partition applied at the concrete feature
basic_monitoring. -/
theorem features_partition_witness :
    ("basic_monitoring" ∉ disabled_features_show) ∧
    ("basic_monitoring" ∈ all_features ↔
      "basic_monitoring" ∈ features_show ∨ "basic_monitoring" ∈ disabled_features_show) :=
  ⟨features_partition.1 ("basic_monitoring") (by decide),
   features_partition.2 ("basic_monitoring")⟩

/-- C8: `aegis_activate_features` is idempotent — applying it twice with the
same tier yields exactly the state of applying it once. -/
theorem activate_idempotent (tier : String) (s : AegisState) :
    aegis_activate_features tier (aegis_activate_features tier s) =
      aegis_activate_features tier s :=
  rfl

/-- C9: `status_show` is total for every integer tier code: it never makes
an out-of-bounds access (never `none`), returns the enumerated name at the
code's index when the code is between 0 and 5, and returns "unknown" for
every out-of-range code. -/
theorem status_show_total (tier : Int) :
    status_show tier ≠ none ∧
    (0 ≤ tier ∧ tier ≤ 5 →
      ∃ hlt : tier.toNat < status_names.length,
        status_show tier = some (status_names.get ⟨tier.toNat, hlt⟩)) ∧
    (tier < 0 ∨ 5 < tier → status_show tier = some ("unknown")) := by
  by_cases h : 0 ≤ tier ∧ tier ≤ 5
  · have hcase : tier = 0 ∨ tier = 1 ∨ tier = 2 ∨ tier = 3 ∨ tier = 4 ∨ tier = 5 := by omega
    rcases hcase with rfl | rfl | rfl | rfl | rfl | rfl <;>
      exact ⟨by decide, fun _ => ⟨by decide, by decide⟩, fun hc => absurd hc (by decide)⟩
  · refine ⟨?_, fun hin => absurd hin h, fun _ => ?_⟩
    · simp [status_show, h]
    · simp [status_show, h]

/-- C9 witness: in-range code 3 yields the enumerated name, out-of-range
code 7 yields "unknown". -/
theorem status_show_total_witness :
    (∃ hlt : (3 : Int).toNat < status_names.length,
      status_show 3 = some (status_names.get ⟨(3 : Int).toNat, hlt⟩)) ∧
    status_show 7 = some ("unknown") :=
  ⟨(status_show_total 3).2.1 (by decide),
   (status_show_total 7).2.2 (Or.inr (by decide))⟩

/-- C10: for every token of length at least 10 the stub validator succeeds,
and the tier it reports is the first keyword of the precedence order
"gamer", "ai", "server", "basic", "freemium" occurring as a substring,
with fallback "unknown". -/
theorem stub_validator_first_match (tok : List Char) (h10 : 10 ≤ tok.length) :
    aegis_validate_token_stub (some tok) = Except.ok (first_keyword tok) := by
  have hnl : ¬ tok.length < 10 := by omega
  simp only [aegis_validate_token_stub, if_neg hnl]
  unfold stub_tier_of first_keyword keyword_order
  rcases hg : strstrB tok ("gamer".toList) with _ | _ <;>
  rcases ha : strstrB tok ("ai".toList) with _ | _ <;>
  rcases hs : strstrB tok ("server".toList) with _ | _ <;>
  rcases hb : strstrB tok ("basic".toList) with _ | _ <;>
  rcases hf : strstrB tok ("freemium".toList) with _ | _ <;>
  simp only [List.find?, hg, ha, hs, hb, hf] <;>
  rfl

/-- C10 witness: the token maintain-server-x contains "ai" only inside the
unrelated word maintain and also contains "server"; it resolves to "ai",
the earlier keyword in the precedence order. -/
theorem stub_validator_first_match_witness :
    aegis_validate_token_stub (some ("maintain-server-x".toList)) = Except.ok ("ai") := by
  have h := stub_validator_first_match ("maintain-server-x".toList) (by decide)
  rw [h]
  decide

end Aegis
